import Mathlib

/-!
Verification of the Artifact Relationship Engine of the CEREBRO repository.

The engine lives in `logic/fuzzy_organizer.py` (similarity computation and
connection discovery), `db/database.py` (relationship persistence), and
`viz/graph_forest.py` (graph assembly).  Python floats are modelled as
rationals (`ℚ`), Python strings as Lean `String`, SQLite integer ids as `ℤ`.

The external library call `fuzz.partial_ratio` (from the third-party
fuzzywuzzy package) is modelled as an abstract comparator parameter
`pr : String → String → ℚ`; every property proved below holds for an
arbitrary comparator, with boundedness `0 ≤ pr s t ≤ 100` taken as a
hypothesis exactly where a claim assumes bounded component scores.
`str.lower` is modelled by `String.toLower` (ASCII lowercasing, which
agrees with Python on the ASCII tag data the repository uses).
-/

/-- An artifact record as consumed by the fuzzy organizer: the loop in
`find_potential_connections` reads `id`, `title`, `description`, `content`
and `tags` from each candidate. -/
structure Artifact where
  id : ℤ
  title : String
  description : String
  content : String
  tags : List String
deriving DecidableEq, Repr

/-- The weights dictionary of `FuzzyOrganizer.__init__`: it always holds
exactly the four keys `title`, `description`, `content`, `tags`. -/
structure Weights where
  title : ℚ
  description : ℚ
  content : ℚ
  tags : ℚ
deriving DecidableEq, Repr

/-- Sum of the four stored weights (`sum(self.weights.values())`). -/
def Weights.total (w : Weights) : ℚ :=
  w.title + w.description + w.content + w.tags

/-- `FuzzyOrganizer._normalize_weights`: if the total weight is zero, each
of the `len(self.weights) = 4` entries is set to `1.0 / 4`; otherwise every
entry is divided by the total. -/
def normalize_weights (w : Weights) : Weights :=
  if w.total = 0 then
    ⟨1/4, 1/4, 1/4, 1/4⟩
  else
    ⟨w.title / w.total, w.description / w.total,
     w.content / w.total, w.tags / w.total⟩

/-- `FuzzyOrganizer.__init__(title_weight, description_weight,
content_weight, tag_weight)`: stores the four weights and normalizes them. -/
def FuzzyOrganizer.init (tw dw cw gw : ℚ) : Weights :=
  normalize_weights ⟨tw, dw, cw, gw⟩

/-- The default construction `FuzzyOrganizer()` with the source's default
arguments `0.4, 0.3, 0.3, 0.3`. -/
def defaultWeights : Weights :=
  FuzzyOrganizer.init (0.4 : ℚ) (0.3 : ℚ) (0.3 : ℚ) (0.3 : ℚ)

/-- `calculate_text_similarity(text1, text2)`: returns `0.0` when either
string is falsy (empty), otherwise delegates to the external comparator
`fuzz.partial_ratio`, modelled by the parameter `pr`. -/
def calculate_text_similarity (pr : String → String → ℚ)
    (text1 text2 : String) : ℚ :=
  if text1 = "" ∨ text2 = "" then 0 else pr text1 text2

/-- Python's `str.lower` on the ASCII data the repository uses: lowercase
every character.  (Stated on the underlying character list; this agrees
with `String.toLower`.) -/
def pyLower (s : String) : String :=
  ⟨s.data.map Char.toLower⟩

/-- The Python set `set(tag.lower() for tag in tags)`. -/
def lowerTagSet (tags : List String) : Finset String :=
  (tags.map pyLower).toFinset

/-- `calculate_tag_similarity(tags1, tags2)`: `0.0` when either list is
empty; otherwise lowercases both sides into sets and returns the Jaccard
index scaled to 0–100, with the source's (unreachable) guards for two empty
sets and a zero-sized union kept in place. -/
def calculate_tag_similarity (tags1 tags2 : List String) : ℚ :=
  if tags1 = [] ∨ tags2 = [] then 0
  else
    let set1 := lowerTagSet tags1
    let set2 := lowerTagSet tags2
    let common_tags := set1 ∩ set2
    if set1 = ∅ ∧ set2 = ∅ then 0
    else
      let union_size := (set1 ∪ set2).card
      if union_size = 0 then 0
      else ((common_tags.card : ℚ) / (union_size : ℚ)) * 100

/-- `calculate_artifact_similarity(artifact1, artifact2)`: returns `0.0`
immediately when the two ids coincide; otherwise the weighted sum of the
four component similarities.  `getattr(·, attr, default)` is total on the
fixed-shape `Artifact` record, so it is plain field access here. -/
def calculate_artifact_similarity (w : Weights) (pr : String → String → ℚ)
    (artifact1 artifact2 : Artifact) : ℚ :=
  if artifact1.id = artifact2.id then 0
  else
    let title_sim := calculate_text_similarity pr artifact1.title artifact2.title
    let desc_sim := calculate_text_similarity pr artifact1.description artifact2.description
    let content_sim := calculate_text_similarity pr artifact1.content artifact2.content
    let tag_sim := calculate_tag_similarity artifact1.tags artifact2.tags
    w.title * title_sim + w.description * desc_sim +
      w.content * content_sim + w.tags * tag_sim

/-- The candidate loop of `find_potential_connections`: skips a candidate
whose id equals the target's; otherwise computes the score inside a
`try/except` whose failure is modelled by the scorer returning
`Except.error` — an erroring candidate is logged and dropped, the scan
continues.  Candidates scoring at least the threshold are collected in
input order. -/
def scanCandidates (calcSim : Artifact → Artifact → Except String ℚ)
    (target : Artifact) (threshold : ℚ) :
    List Artifact → List (Artifact × ℚ)
  | [] => []
  | artifact :: rest =>
    if artifact.id ≠ target.id then
      match calcSim target artifact with
      | .ok score =>
          if threshold ≤ score then
            (artifact, score) :: scanCandidates calcSim target threshold rest
          else
            scanCandidates calcSim target threshold rest
      | .error _ => scanCandidates calcSim target threshold rest
    else
      scanCandidates calcSim target threshold rest

/-- The comparison handed to Python's `list.sort(key=lambda item: item[1],
reverse=True)`: pair `p` may precede pair `q` when `q`'s score is at most
`p`'s. -/
def scoreDescending (p q : Artifact × ℚ) : Prop :=
  q.2 ≤ p.2

instance : DecidableRel scoreDescending :=
  fun p q => inferInstanceAs (Decidable (q.2 ≤ p.2))

/-- `find_potential_connections(target_artifact, all_artifacts, threshold)`:
scans the candidates (the empty-input early return coincides with scanning
the empty list) and sorts the hits by score, descending.  Python's
`list.sort` is a stable sort; a stable sort is determined uniquely by the
comparison and the input order, and is modelled here by
`List.insertionSort` under the non-strict may-precede comparison
`scoreDescending` (equal-score pairs keep their input order).  The
similarity computation is the method-call boundary at which the source
catches per-candidate exceptions, so it is passed in as a fallible
`calcSim`; the non-raising instantiation is `pureSim`. -/
def find_potential_connections (calcSim : Artifact → Artifact → Except String ℚ)
    (target : Artifact) (allArtifacts : List Artifact) (threshold : ℚ) :
    List (Artifact × ℚ) :=
  List.insertionSort scoreDescending
    (scanCandidates calcSim target threshold allArtifacts)

/-- The scorer used by the source: a direct call to
`calculate_artifact_similarity`, which never raises on well-formed
artifacts. -/
def pureSim (w : Weights) (pr : String → String → ℚ) :
    Artifact → Artifact → Except String ℚ :=
  fun a b => Except.ok (calculate_artifact_similarity w pr a b)

/-!
Relationship persistence, `db/database.py`.

A row of the `relationships` table from the schema created by
`initialize_database`: an autoincrement row id, the two artifact ids
(with `UNIQUE (artifact_id_1, artifact_id_2)`), a relationship type, a
fuzzy score and a free-form note.  The `created_at` wall-clock timestamp
column is omitted: no claim depends on it.
-/

/-- One stored row of the `relationships` table. -/
structure RelRow where
  rowid : ℕ
  artifact_id_1 : ℤ
  artifact_id_2 : ℤ
  relationship_type : String
  fuzzy_score : ℚ
  note : String
deriving DecidableEq, Repr

/-- The `relationships` table: its rows plus the next autoincrement rowid. -/
structure RelDB where
  rows : List RelRow
  nextRowid : ℕ
deriving DecidableEq, Repr

/-- `create_relationship(artifact_id_1, artifact_id_2, relationship_type,
fuzzy_score, description)`: swaps the two ids when the first is greater
(the source's canonicalization for the `UNIQUE` constraint — note it does
NOT reject equal ids), then performs `INSERT OR IGNORE`: if a row with the
same ordered id pair already exists the statement is ignored, `rowcount`
stays 0 and the function returns `None` with the table untouched;
otherwise the row is inserted and its fresh `lastrowid` returned. -/
def create_relationship (db : RelDB) (artifact_id_1 artifact_id_2 : ℤ)
    (relationship_type : String) (fuzzy_score : ℚ) (note : String) :
    Option ℕ × RelDB :=
  let a1 := if artifact_id_1 > artifact_id_2 then artifact_id_2 else artifact_id_1
  let a2 := if artifact_id_1 > artifact_id_2 then artifact_id_1 else artifact_id_2
  if db.rows.any (fun r => r.artifact_id_1 = a1 ∧ r.artifact_id_2 = a2) then
    (none, db)
  else
    (some db.nextRowid,
     ⟨db.rows ++ [⟨db.nextRowid, a1, a2, relationship_type, fuzzy_score, note⟩],
      db.nextRowid + 1⟩)

/-!
Graph assembly, `viz/graph_forest.py`.

`build_artifact_graph` consumes artifact dictionaries (keys `id`, `title`,
`type`, `description`) and relationship dictionaries (keys `source`,
`target`, `type`, `score`) and assembles a networkx `nx.Graph`.  The
`nx.Graph` operations the source uses are modelled directly: `add_node`
replaces the attributes of an existing node id or appends a new node;
`add_edge` on an undirected graph updates the attribute dictionary of an
existing edge over the same unordered pair (keeping its stored
orientation) or appends a new edge.  networkx's implicit node creation in
`add_edge` never fires here because the source only adds an edge after
checking both endpoints are already nodes, so it is not modelled.
-/

/-- An artifact dictionary as consumed by `build_artifact_graph`. -/
structure GArtifact where
  id : ℤ
  title : String
  gtype : String
  description : String
deriving DecidableEq, Repr

/-- A relationship dictionary as consumed by `build_artifact_graph`. -/
structure RelRec where
  source : ℤ
  target : ℤ
  rtype : String
  score : ℚ
deriving DecidableEq, Repr

/-- Node attributes stored by `G.add_node` in `build_artifact_graph`. -/
structure NodeAttrs where
  title : String
  gtype : String
  description : String
  color : String
deriving DecidableEq, Repr

/-- One undirected edge with its attribute dictionary. -/
structure EdgeData where
  u : ℤ
  v : ℤ
  etype : String
  score : ℚ
  color : String
deriving DecidableEq, Repr

/-- The modelled `nx.Graph`: node list (id with attributes) and edge list,
at most one edge per unordered pair by construction. -/
structure Graph where
  nodes : List (ℤ × NodeAttrs)
  edges : List EdgeData
deriving DecidableEq, Repr

/-- `NODE_COLORS.get(type, 'lightgray')`. -/
def nodeColorsGet (t : String) : String :=
  if t = "Project" then "skyblue"
  else if t = "Artifact" then "lightgreen"
  else if t = "Tag" then "orange"
  else if t = "Relationship" then "red"
  else "lightgray"

/-- `EDGE_COLORS.get(type, 'black')`. -/
def edgeColorsGet (t : String) : String :=
  if t = "Parent-Child" then "gray"
  else if t = "Related" then "purple"
  else if t = "FuzzyLink" then "blue"
  else "black"

/-- Node-id membership, the `rel['source'] in G` check. -/
def Graph.hasNode (G : Graph) (n : ℤ) : Bool :=
  G.nodes.any (fun p => p.1 = n)

/-- `G.add_node(id, **attrs)`: replaces the attributes of an existing node
with the same id, otherwise appends the node. -/
def Graph.addNode (G : Graph) (n : ℤ) (attrs : NodeAttrs) : Graph :=
  if G.hasNode n then
    ⟨G.nodes.map (fun p => if p.1 = n then (n, attrs) else p), G.edges⟩
  else
    ⟨G.nodes ++ [(n, attrs)], G.edges⟩

/-- Whether an edge record covers the unordered pair `{u, v}`. -/
def EdgeData.matchesPair (e : EdgeData) (u v : ℤ) : Bool :=
  (e.u = u ∧ e.v = v) ∨ (e.u = v ∧ e.v = u)

/-- Overwrite an edge's attribute dictionary, keeping its orientation. -/
def EdgeData.setAttrs (e : EdgeData) (t : String) (s : ℚ) (c : String) :
    EdgeData :=
  { e with etype := t, score := s, color := c }

/-- Update the first edge over the unordered pair `{u, v}` in place, or
append a fresh edge when none exists. -/
def updateEdges (u v : ℤ) (t : String) (s : ℚ) (c : String) :
    List EdgeData → List EdgeData
  | [] => [⟨u, v, t, s, c⟩]
  | e :: es =>
    if e.matchesPair u v then e.setAttrs t s c :: es
    else e :: updateEdges u v t s c es

/-- `G.add_edge(u, v, **attrs)` on an `nx.Graph` whose endpoints are
already nodes: sets the attribute dictionary of the (unique) edge over the
unordered pair `{u, v}`, creating the edge if absent. -/
def Graph.addEdge (G : Graph) (u v : ℤ) (t : String) (s : ℚ) (c : String) :
    Graph :=
  ⟨G.nodes, updateEdges u v t s c G.edges⟩

/-- One iteration of the relationship loop of `build_artifact_graph`: the
edge is added only when both endpoint ids are already nodes; otherwise a
warning is printed and the record is skipped. -/
def addRel (G : Graph) (r : RelRec) : Graph :=
  if G.hasNode r.source && G.hasNode r.target then
    G.addEdge r.source r.target r.rtype r.score (edgeColorsGet r.rtype)
  else
    G

/-- One iteration of the node loop of `build_artifact_graph`. -/
def addArtifactNode (G : Graph) (a : GArtifact) : Graph :=
  G.addNode a.id ⟨a.title, a.gtype, a.description, nodeColorsGet a.gtype⟩

/-- `build_artifact_graph(artifacts, relationships)`: starts from an empty
`nx.Graph`, adds one node per artifact, then processes the relationship
records in order. -/
def build_artifact_graph (artifacts : List GArtifact)
    (relationships : List RelRec) : Graph :=
  relationships.foldl addRel (artifacts.foldl addArtifactNode ⟨[], []⟩)

/-- The ids currently present as nodes. -/
def Graph.nodeIds (G : Graph) : List ℤ :=
  G.nodes.map Prod.fst

/-!  Helper lemmas.  -/

/-- The four fields of a normalized weight configuration are non-negative
and sum to `1` whenever the supplied weights are non-negative. -/
theorem normalize_weights_spec (tw dw cw gw : ℚ)
    (htw : 0 ≤ tw) (hdw : 0 ≤ dw) (hcw : 0 ≤ cw) (hgw : 0 ≤ gw) :
    0 ≤ (FuzzyOrganizer.init tw dw cw gw).title ∧
    0 ≤ (FuzzyOrganizer.init tw dw cw gw).description ∧
    0 ≤ (FuzzyOrganizer.init tw dw cw gw).content ∧
    0 ≤ (FuzzyOrganizer.init tw dw cw gw).tags ∧
    (FuzzyOrganizer.init tw dw cw gw).total = 1 := by
  unfold FuzzyOrganizer.init normalize_weights
  by_cases h : (Weights.mk tw dw cw gw).total = 0
  · rw [if_pos h]
    refine ⟨by norm_num, by norm_num, by norm_num, by norm_num, ?_⟩
    show (1 : ℚ)/4 + 1/4 + 1/4 + 1/4 = 1
    norm_num
  · rw [if_neg h]
    have htot : 0 < (Weights.mk tw dw cw gw).total := by
      rcases lt_or_eq_of_le (show (0 : ℚ) ≤ (Weights.mk tw dw cw gw).total by
        show (0 : ℚ) ≤ tw + dw + cw + gw; positivity) with hlt | heq
      · exact hlt
      · exact absurd heq.symm h
    refine ⟨div_nonneg htw htot.le, div_nonneg hdw htot.le,
      div_nonneg hcw htot.le, div_nonneg hgw htot.le, ?_⟩
    show tw / _ + dw / _ + cw / _ + gw / _ = 1
    field_simp
    show tw + dw + cw + gw = (Weights.mk tw dw cw gw).total
    rfl

/-- `calculate_text_similarity` is bounded whenever the underlying
comparator is. -/
theorem calculate_text_similarity_bounds (pr : String → String → ℚ)
    (hpr : ∀ s t, 0 ≤ pr s t ∧ pr s t ≤ 100) (s t : String) :
    0 ≤ calculate_text_similarity pr s t ∧
      calculate_text_similarity pr s t ≤ 100 := by
  unfold calculate_text_similarity
  split
  · exact ⟨le_refl 0, by norm_num⟩
  · exact hpr s t

/-- `calculate_tag_similarity` always lands in `[0, 100]`. -/
theorem calculate_tag_similarity_bounds (tags1 tags2 : List String) :
    0 ≤ calculate_tag_similarity tags1 tags2 ∧
      calculate_tag_similarity tags1 tags2 ≤ 100 := by
  unfold calculate_tag_similarity
  dsimp only
  split
  · exact ⟨le_refl 0, by norm_num⟩
  · split
    · exact ⟨le_refl 0, by norm_num⟩
    · split
      · exact ⟨le_refl 0, by norm_num⟩
      · rename_i hempty hcard
        set s1 := lowerTagSet tags1
        set s2 := lowerTagSet tags2
        have hsub : (s1 ∩ s2).card ≤ (s1 ∪ s2).card :=
          Finset.card_le_card Finset.inter_subset_union
        have hpos : (0 : ℚ) < ((s1 ∪ s2).card : ℚ) := by
          have : 0 < (s1 ∪ s2).card := Nat.pos_of_ne_zero hcard
          exact_mod_cast this
        constructor
        · positivity
        · have hdiv : ((s1 ∩ s2).card : ℚ) / ((s1 ∪ s2).card : ℚ) ≤ 1 := by
            rw [div_le_one hpos]
            exact_mod_cast hsub
          calc ((s1 ∩ s2).card : ℚ) / ((s1 ∪ s2).card : ℚ) * 100
              ≤ 1 * 100 := by
                exact mul_le_mul_of_nonneg_right hdiv (by norm_num)
            _ = 100 := by norm_num

/-- A non-empty tag list lowers to a non-empty set. -/
theorem lowerTagSet_ne_empty {tags : List String} (h : tags ≠ []) :
    lowerTagSet tags ≠ ∅ := by
  unfold lowerTagSet
  rw [Ne, List.toFinset_eq_empty_iff, List.map_eq_nil_iff]
  exact h

/-- C5: constructing a `FuzzyOrganizer` with any non-negative weights
stores weights summing to `1.0`; constructing with all four weights zero
sets each weight to `0.25` instead of dividing by zero or raising. -/
theorem C5_weights_normalized (tw dw cw gw : ℚ)
    (htw : 0 ≤ tw) (hdw : 0 ≤ dw) (hcw : 0 ≤ cw) (hgw : 0 ≤ gw) :
    (FuzzyOrganizer.init tw dw cw gw).total = 1 ∧
      FuzzyOrganizer.init 0 0 0 0 = ⟨1/4, 1/4, 1/4, 1/4⟩ := by
  refine ⟨(normalize_weights_spec tw dw cw gw htw hdw hcw hgw).2.2.2.2, ?_⟩
  unfold FuzzyOrganizer.init normalize_weights
  rw [if_pos (show (Weights.mk 0 0 0 0).total = 0 by
    show (0 : ℚ) + 0 + 0 + 0 = 0; norm_num)]

/-- Witness for C5 at the source's default construction arguments. -/
theorem C5_weights_normalized_witness :
    (0 : ℚ) ≤ 0.4 ∧ (0 : ℚ) ≤ 0.3 ∧
      ((FuzzyOrganizer.init 0.4 0.3 0.3 0.3).total = 1 ∧
        FuzzyOrganizer.init 0 0 0 0 = ⟨1/4, 1/4, 1/4, 1/4⟩) :=
  ⟨by norm_num, by norm_num,
    C5_weights_normalized 0.4 0.3 0.3 0.3
      (by norm_num) (by norm_num) (by norm_num) (by norm_num)⟩

/-- C6: two artifacts sharing an id get similarity `0` immediately — the
guard fires before any component similarity is consulted, so the result
holds for every weight configuration and every comparator. -/
theorem C6_no_self_similarity (w : Weights) (pr : String → String → ℚ)
    (artifact1 artifact2 : Artifact) (h : artifact1.id = artifact2.id) :
    calculate_artifact_similarity w pr artifact1 artifact2 = 0 := by
  unfold calculate_artifact_similarity
  rw [if_pos h]

/-- Witness for C6: an artifact compared with itself scores `0`. -/
theorem C6_no_self_similarity_witness :
    (Artifact.mk 1 "t" "d" "c" ["x"]).id = (Artifact.mk 1 "t" "d" "c" ["x"]).id ∧
      calculate_artifact_similarity defaultWeights (fun _ _ => 0)
        (Artifact.mk 1 "t" "d" "c" ["x"]) (Artifact.mk 1 "t" "d" "c" ["x"]) = 0 :=
  ⟨rfl, C6_no_self_similarity _ _ _ _ rfl⟩

/-- C9: on non-empty tag lists, tag similarity is the Jaccard index of the
lowercased tag sets scaled to 0–100; an empty side yields `0`; and the
spec's concrete case-insensitivity example evaluates to `100/3`. -/
theorem C9_tag_similarity_jaccard (tags1 tags2 : List String)
    (h1 : tags1 ≠ []) (h2 : tags2 ≠ []) :
    calculate_tag_similarity tags1 tags2 =
        ((lowerTagSet tags1 ∩ lowerTagSet tags2).card : ℚ) /
          ((lowerTagSet tags1 ∪ lowerTagSet tags2).card : ℚ) * 100 ∧
      calculate_tag_similarity [] tags2 = 0 ∧
      calculate_tag_similarity tags1 [] = 0 ∧
      calculate_tag_similarity ["Alpha", "Beta"] ["alpha", "Gamma"] = 100/3 := by
  refine ⟨?_, ?_, ?_, ?_⟩
  · unfold calculate_tag_similarity
    dsimp only
    rw [if_neg (by simp [h1, h2]),
      if_neg (by simp [lowerTagSet_ne_empty h1, lowerTagSet_ne_empty h2]),
      if_neg ?_]
    intro hcard
    exact lowerTagSet_ne_empty h1
      (Finset.subset_empty.mp (Finset.card_eq_zero.mp hcard ▸ Finset.subset_union_left))
  · unfold calculate_tag_similarity
    rw [if_pos (Or.inl rfl)]
  · unfold calculate_tag_similarity
    rw [if_pos (Or.inr rfl)]
  · unfold calculate_tag_similarity
    dsimp only
    rw [if_neg (by decide), if_neg (by decide)]
    rw [show (lowerTagSet ["Alpha", "Beta"] ∩ lowerTagSet ["alpha", "Gamma"]).card = 1
        from by decide,
      show (lowerTagSet ["Alpha", "Beta"] ∪ lowerTagSet ["alpha", "Gamma"]).card = 3
        from by decide]
    rw [if_neg (by decide)]
    norm_num

/-- Witness for C9 at the spec's concrete example. -/
theorem C9_tag_similarity_jaccard_witness :
    (["Alpha", "Beta"] : List String) ≠ [] ∧
      (["alpha", "Gamma"] : List String) ≠ [] ∧
      calculate_tag_similarity ["Alpha", "Beta"] ["alpha", "Gamma"] = 100/3 :=
  ⟨by decide, by decide,
    (C9_tag_similarity_jaccard ["Alpha", "Beta"] ["alpha", "Gamma"]
      (by decide) (by decide)).2.2.2⟩

/-- C4: with non-negative configured weights (normalized at construction)
and a comparator bounded in `[0, 100]`, every similarity score lies in
`[0, 100]`. -/
theorem C4_similarity_bounded (tw dw cw gw : ℚ) (pr : String → String → ℚ)
    (artifact1 artifact2 : Artifact)
    (htw : 0 ≤ tw) (hdw : 0 ≤ dw) (hcw : 0 ≤ cw) (hgw : 0 ≤ gw)
    (hpr : ∀ s t, 0 ≤ pr s t ∧ pr s t ≤ 100) :
    0 ≤ calculate_artifact_similarity (FuzzyOrganizer.init tw dw cw gw) pr
          artifact1 artifact2 ∧
      calculate_artifact_similarity (FuzzyOrganizer.init tw dw cw gw) pr
          artifact1 artifact2 ≤ 100 := by
  obtain ⟨hw1, hw2, hw3, hw4, hsum⟩ :=
    normalize_weights_spec tw dw cw gw htw hdw hcw hgw
  set w := FuzzyOrganizer.init tw dw cw gw with hw
  unfold calculate_artifact_similarity
  split
  · exact ⟨le_refl 0, by norm_num⟩
  · dsimp only
    obtain ⟨ht0, ht1⟩ :=
      calculate_text_similarity_bounds pr hpr artifact1.title artifact2.title
    obtain ⟨hd0, hd1⟩ :=
      calculate_text_similarity_bounds pr hpr artifact1.description artifact2.description
    obtain ⟨hc0, hc1⟩ :=
      calculate_text_similarity_bounds pr hpr artifact1.content artifact2.content
    obtain ⟨hg0, hg1⟩ :=
      calculate_tag_similarity_bounds artifact1.tags artifact2.tags
    have hsum' : w.title + w.description + w.content + w.tags = 1 := hsum
    constructor
    · positivity
    · nlinarith [mul_le_mul_of_nonneg_left ht1 hw1,
        mul_le_mul_of_nonneg_left hd1 hw2,
        mul_le_mul_of_nonneg_left hc1 hw3,
        mul_le_mul_of_nonneg_left hg1 hw4]

/-- Witness for C4 at the default weights and a constant comparator. -/
theorem C4_similarity_bounded_witness :
    0 ≤ calculate_artifact_similarity (FuzzyOrganizer.init 0.4 0.3 0.3 0.3)
          (fun _ _ => 50) (Artifact.mk 1 "a" "b" "c" ["x"])
          (Artifact.mk 2 "a" "b" "c" ["y"]) ∧
      calculate_artifact_similarity (FuzzyOrganizer.init 0.4 0.3 0.3 0.3)
          (fun _ _ => 50) (Artifact.mk 1 "a" "b" "c" ["x"])
          (Artifact.mk 2 "a" "b" "c" ["y"]) ≤ 100 :=
  C4_similarity_bounded 0.4 0.3 0.3 0.3 (fun _ _ => 50) _ _
    (by norm_num) (by norm_num) (by norm_num) (by norm_num)
    (fun _ _ => ⟨by norm_num, by norm_num⟩)

/-- C8: a candidate whose similarity computation raises is logged and
dropped at the per-candidate boundary; the scan of the remaining
candidates is unaffected and `find_potential_connections` still returns —
removing the failing candidate from the input changes nothing. -/
theorem C8_failing_candidate_excluded
    (calcSim : Artifact → Artifact → Except String ℚ) (target : Artifact)
    (threshold : ℚ) (l1 l2 : List Artifact) (c : Artifact) (e : String)
    (hc : calcSim target c = Except.error e) :
    find_potential_connections calcSim target (l1 ++ c :: l2) threshold =
      find_potential_connections calcSim target (l1 ++ l2) threshold := by
  unfold find_potential_connections
  have hscan : scanCandidates calcSim target threshold (l1 ++ c :: l2) =
      scanCandidates calcSim target threshold (l1 ++ l2) := by
    induction l1 with
    | nil =>
      simp only [List.nil_append]
      conv_lhs => rw [scanCandidates]
      rw [hc]
      split
      · rfl
      · rfl
    | cons a rest ih =>
      simp only [List.cons_append]
      conv_lhs => rw [scanCandidates]
      conv_rhs => rw [scanCandidates]
      rw [ih]
  rw [hscan]

/-- The default weights in lowest terms. -/
theorem defaultWeights_eq : defaultWeights = ⟨4/13, 3/13, 3/13, 3/13⟩ := by
  unfold defaultWeights FuzzyOrganizer.init normalize_weights
  rw [if_neg (show (Weights.mk 0.4 0.3 0.3 0.3).total ≠ 0 by
    show (0.4 : ℚ) + 0.3 + 0.3 + 0.3 ≠ 0; norm_num)]
  show Weights.mk _ _ _ _ = _
  rw [Weights.mk.injEq]
  refine ⟨?_, ?_, ?_, ?_⟩ <;>
    · show _ / ((0.4 : ℚ) + 0.3 + 0.3 + 0.3) = _
      norm_num

/-- Similarity of the all-empty-text, tag-`["x"]` probe artifacts under the
default weights: text components are `0`, the tag component is `100`, so
the weighted score is `(3/13) * 100 = 300/13` for every distinct id. -/
theorem probe_similarity (i : ℤ) (hi : i ≠ 0) :
    calculate_artifact_similarity defaultWeights (fun _ _ => 0)
        (Artifact.mk 0 "" "" "" ["x"]) (Artifact.mk i "" "" "" ["x"]) =
      300/13 := by
  unfold calculate_artifact_similarity
  rw [if_neg (show ¬ ((0 : ℤ) = i) from fun h => hi h.symm)]
  dsimp only
  rw [show calculate_text_similarity (fun _ _ => (0 : ℚ)) "" "" = 0 from by
    unfold calculate_text_similarity; rw [if_pos (Or.inl rfl)]]
  rw [show calculate_tag_similarity ["x"] ["x"] = 100 from by
    unfold calculate_tag_similarity
    dsimp only
    rw [if_neg (by decide), if_neg (by decide)]
    rw [show (lowerTagSet ["x"] ∩ lowerTagSet ["x"]).card = 1 from by decide,
      show (lowerTagSet ["x"] ∪ lowerTagSet ["x"]).card = 1 from by decide]
    rw [if_neg (by decide)]
    norm_num]
  rw [defaultWeights_eq]
  norm_num

/-- The connection scan over the two tag-`["x"]` probes with ids `2` then
`1` keeps both, each with the tied score `300/13`, in input order. -/
theorem probe_scan :
    scanCandidates (pureSim defaultWeights (fun _ _ => 0))
        (Artifact.mk 0 "" "" "" ["x"]) 0
        [Artifact.mk 2 "" "" "" ["x"], Artifact.mk 1 "" "" "" ["x"]] =
      [(Artifact.mk 2 "" "" "" ["x"], 300/13),
        (Artifact.mk 1 "" "" "" ["x"], 300/13)] := by
  have h2 := probe_similarity 2 (by decide)
  have h1 := probe_similarity 1 (by decide)
  simp only [scanCandidates, pureSim, h1, h2]
  norm_num

/-- The full connection discovery on the probes: the sort keeps the tied
pair in input order (id `2` before id `1`). -/
theorem probe_connections :
    find_potential_connections (pureSim defaultWeights (fun _ _ => 0))
        (Artifact.mk 0 "" "" "" ["x"])
        [Artifact.mk 2 "" "" "" ["x"], Artifact.mk 1 "" "" "" ["x"]] 0 =
      [(Artifact.mk 2 "" "" "" ["x"], 300/13),
        (Artifact.mk 1 "" "" "" ["x"], 300/13)] := by
  unfold find_potential_connections
  rw [probe_scan]
  simp [List.insertionSort, List.orderedInsert, scoreDescending]

/-- C1 fails as stated: on the probe input the two kept candidates have
equal scores but appear with ids `2, 1` — descending, not ascending — so
the output is not ordered by "descending score with ties ascending by
id". -/
theorem C1_counterexample :
    ¬ List.Pairwise
        (fun p q : Artifact × ℚ => q.2 < p.2 ∨ (p.2 = q.2 ∧ p.1.id < q.1.id))
        (find_potential_connections (pureSim defaultWeights (fun _ _ => 0))
          (Artifact.mk 0 "" "" "" ["x"])
          [Artifact.mk 2 "" "" "" ["x"], Artifact.mk 1 "" "" "" ["x"]] 0) := by
  rw [probe_connections]
  intro hpw
  rcases (List.pairwise_cons.mp hpw).1 _ (List.mem_singleton_self _) with
    h | ⟨-, h⟩
  · exact absurd h (lt_irrefl _)
  · exact absurd h (by decide)

/-- C1 (amended): the returned list is ordered descending by score, is a
permutation of the kept candidates, and ties keep the candidates' input
order (Python's sort is stable) — the tie-break is input order, not
ascending id. -/
theorem C1_connections_sorted_stable
    (calcSim : Artifact → Artifact → Except String ℚ) (target : Artifact)
    (allArtifacts : List Artifact) (threshold : ℚ) (p q : Artifact × ℚ)
    (hpq : List.Sublist [p, q]
      (scanCandidates calcSim target threshold allArtifacts))
    (htie : p.2 = q.2) :
    List.Sorted scoreDescending
        (find_potential_connections calcSim target allArtifacts threshold) ∧
      (find_potential_connections calcSim target allArtifacts threshold).Perm
        (scanCandidates calcSim target threshold allArtifacts) ∧
      List.Sublist [p, q]
        (find_potential_connections calcSim target allArtifacts threshold) := by
  haveI : IsTotal (Artifact × ℚ) scoreDescending := ⟨fun a b => le_total b.2 a.2⟩
  haveI : IsTrans (Artifact × ℚ) scoreDescending :=
    ⟨fun _ _ _ h1 h2 => le_trans h2 h1⟩
  unfold find_potential_connections
  exact ⟨List.sorted_insertionSort _ _, List.perm_insertionSort _ _,
    List.pair_sublist_insertionSort (le_of_eq htie.symm) hpq⟩

/-- Witness for C1 (amended) on a concrete tied scan. -/
theorem C1_connections_sorted_stable_witness :
    List.Sorted scoreDescending
        (find_potential_connections (fun _ _ => Except.ok 5)
          (Artifact.mk 0 "" "" "" [])
          [Artifact.mk 2 "" "" "" [], Artifact.mk 1 "" "" "" []] 0) ∧
      (find_potential_connections (fun _ _ => Except.ok 5)
          (Artifact.mk 0 "" "" "" [])
          [Artifact.mk 2 "" "" "" [], Artifact.mk 1 "" "" "" []] 0).Perm
        (scanCandidates (fun _ _ => Except.ok 5)
          (Artifact.mk 0 "" "" "" []) 0
          [Artifact.mk 2 "" "" "" [], Artifact.mk 1 "" "" "" []]) ∧
      List.Sublist
        [(Artifact.mk 2 "" "" "" [], (5 : ℚ)),
          (Artifact.mk 1 "" "" "" [], (5 : ℚ))]
        (find_potential_connections (fun _ _ => Except.ok 5)
          (Artifact.mk 0 "" "" "" [])
          [Artifact.mk 2 "" "" "" [], Artifact.mk 1 "" "" "" []] 0) :=
  C1_connections_sorted_stable _ _ _ 0 _ _
    (by decide) rfl

/-- Witness for C8: a scorer that raises on candidate id `9` yields the
same result whether or not that candidate is present. -/
theorem C8_failing_candidate_excluded_witness :
    find_potential_connections
        (fun _ a => if a.id = 9 then Except.error "boom" else Except.ok 50)
        (Artifact.mk 0 "" "" "" [])
        ([Artifact.mk 1 "" "" "" []] ++ Artifact.mk 9 "" "" "" [] ::
          [Artifact.mk 3 "" "" "" []]) 0 =
      find_potential_connections
        (fun _ a => if a.id = 9 then Except.error "boom" else Except.ok 50)
        (Artifact.mk 0 "" "" "" [])
        ([Artifact.mk 1 "" "" "" []] ++ [Artifact.mk 3 "" "" "" []]) 0 :=
  C8_failing_candidate_excluded _ _ 0 _ _ _ "boom" rfl

/-- C2 fails on the code: `create_relationship` canonicalizes only a
strictly-greater first id and never rejects equal ids, so calling it with
the same artifact id on both sides stores a row whose two artifact ids are
equal (the `UNIQUE` pair constraint does not prevent it). -/
theorem C2_self_loop_row_stored :
    (create_relationship ⟨[], 1⟩ 5 5 "synapse" 0 "").1 = some 1 ∧
      ∃ r, r ∈ (create_relationship ⟨[], 1⟩ 5 5 "synapse" 0 "").2.rows ∧
        r.artifact_id_1 = r.artifact_id_2 := by
  exact ⟨rfl, ⟨⟨1, 5, 5, "synapse", 0, ""⟩, by decide, rfl⟩⟩

/-- C3: with distinct argument ids the stored row is canonically ordered
(smaller id first); and when a row for the same unordered pair is already
present the call returns `None` and leaves the table unchanged, in either
argument order. -/
theorem C3_canonical_order_and_duplicate_reject (db : RelDB) (a b : ℤ)
    (t : String) (s : ℚ) (d : String) (hab : a ≠ b) :
    (∀ r, r ∈ (create_relationship db a b t s d).2.rows →
        r ∈ db.rows ∨
          (r.artifact_id_1 = min a b ∧ r.artifact_id_2 = max a b ∧
            r.artifact_id_1 < r.artifact_id_2)) ∧
      ((∃ r, r ∈ db.rows ∧ r.artifact_id_1 = min a b ∧
          r.artifact_id_2 = max a b) →
        create_relationship db a b t s d = (none, db)) := by
  have hcan1 : (if a > b then b else a) = min a b := by
    rcases lt_trichotomy a b with h | h | h
    · rw [if_neg (not_lt_of_lt h), min_eq_left h.le]
    · exact absurd h hab
    · rw [if_pos h, min_eq_right h.le]
  have hcan2 : (if a > b then a else b) = max a b := by
    rcases lt_trichotomy a b with h | h | h
    · rw [if_neg (not_lt_of_lt h), max_eq_right h.le]
    · exact absurd h hab
    · rw [if_pos h, max_eq_left h.le]
  have hminmax : min a b < max a b := min_lt_max.mpr hab
  unfold create_relationship
  rw [hcan1, hcan2]
  constructor
  · intro r hr
    by_cases hdup : db.rows.any
        (fun r => r.artifact_id_1 = min a b ∧ r.artifact_id_2 = max a b)
    · rw [if_pos hdup] at hr
      exact Or.inl hr
    · rw [if_neg hdup] at hr
      rcases List.mem_append.mp hr with h | h
      · exact Or.inl h
      · rcases List.mem_singleton.mp h with rfl
        exact Or.inr ⟨rfl, rfl, hminmax⟩
  · rintro ⟨r, hr, h1, h2⟩
    rw [if_pos (List.any_eq_true.mpr ⟨r, hr, by simp [h1, h2]⟩)]

/-- Witness for C3: inserting the pair `(1, 2)` canonically and then
rejecting the duplicate offered as `(2, 1)`. -/
theorem C3_canonical_order_and_duplicate_reject_witness :
    (∀ r, r ∈ (create_relationship
          (RelDB.mk [RelRow.mk 1 1 2 "synapse" 0 ""] 2) 2 1 "tree" 0 "").2.rows →
        r ∈ [RelRow.mk 1 1 2 "synapse" 0 ""] ∨
          (r.artifact_id_1 = min (2 : ℤ) 1 ∧ r.artifact_id_2 = max (2 : ℤ) 1 ∧
            r.artifact_id_1 < r.artifact_id_2)) ∧
      ((∃ r, r ∈ [RelRow.mk 1 1 2 "synapse" 0 ""] ∧
          r.artifact_id_1 = min (2 : ℤ) 1 ∧ r.artifact_id_2 = max (2 : ℤ) 1) →
        create_relationship (RelDB.mk [RelRow.mk 1 1 2 "synapse" 0 ""] 2)
            2 1 "tree" 0 "" =
          (none, RelDB.mk [RelRow.mk 1 1 2 "synapse" 0 ""] 2)) :=
  C3_canonical_order_and_duplicate_reject
    (RelDB.mk [RelRow.mk 1 1 2 "synapse" 0 ""] 2) 2 1 "tree" 0 "" (by decide)

/-- Adding a node never touches the edge list. -/
theorem addArtifactNode_edges (G : Graph) (a : GArtifact) :
    (addArtifactNode G a).edges = G.edges := by
  unfold addArtifactNode Graph.addNode
  split <;> rfl

/-- The node-building phase of `build_artifact_graph` produces no edges. -/
theorem base_graph_edges (artifacts : List GArtifact) :
    (artifacts.foldl addArtifactNode ⟨[], []⟩).edges = [] := by
  suffices h : ∀ G : Graph, G.edges = [] →
      (artifacts.foldl addArtifactNode G).edges = [] from h ⟨[], []⟩ rfl
  induction artifacts with
  | nil => intro G hG; exact hG
  | cons a rest ih =>
    intro G hG
    rw [List.foldl_cons]
    exact ih _ ((addArtifactNode_edges G a).trans hG)

/-- Processing a relationship record never touches the node list. -/
theorem addRel_nodes (G : Graph) (r : RelRec) : (addRel G r).nodes = G.nodes := by
  unfold addRel Graph.addEdge
  split <;> rfl

/-- Node membership is invariant under processing a relationship record. -/
theorem addRel_hasNode (G : Graph) (r : RelRec) (n : ℤ) :
    (addRel G r).hasNode n = G.hasNode n := by
  unfold Graph.hasNode
  rw [addRel_nodes]

/-- `hasNode` agrees with membership in the node-id list. -/
theorem hasNode_iff (G : Graph) (n : ℤ) :
    G.hasNode n = true ↔ n ∈ G.nodeIds := by
  simp [Graph.hasNode, Graph.nodeIds, List.any_eq_true, List.mem_map]

/-- Every edge surviving an update is either an old edge with its
endpoints kept, or the freshly offered pair. -/
theorem mem_updateEdges (u v : ℤ) (t : String) (s : ℚ) (c : String)
    (es : List EdgeData) (e' : EdgeData)
    (h : e' ∈ updateEdges u v t s c es) :
    (∃ e0, e0 ∈ es ∧ e'.u = e0.u ∧ e'.v = e0.v) ∨ (e'.u = u ∧ e'.v = v) := by
  induction es with
  | nil =>
    rcases List.mem_singleton.mp h with rfl
    exact Or.inr ⟨rfl, rfl⟩
  | cons e es ih =>
    rw [updateEdges] at h
    split at h
    · rcases List.mem_cons.mp h with rfl | h
      · exact Or.inl ⟨e, List.mem_cons_self e es, rfl, rfl⟩
      · exact Or.inl ⟨e', List.mem_cons_of_mem e h, rfl, rfl⟩
    · rcases List.mem_cons.mp h with rfl | h
      · exact Or.inl ⟨e', List.mem_cons_self _ _, rfl, rfl⟩
      · rcases ih h with ⟨e0, h0, hu, hv⟩ | hnew
        · exact Or.inl ⟨e0, List.mem_cons_of_mem _ h0, hu, hv⟩
        · exact Or.inr hnew

/-- Processing one relationship record preserves the edge-endpoint
invariant: every edge endpoint is a known node id. -/
theorem addRel_endpoints (G : Graph) (r : RelRec)
    (hG : ∀ e, e ∈ G.edges → e.u ∈ G.nodeIds ∧ e.v ∈ G.nodeIds) :
    ∀ e, e ∈ (addRel G r).edges →
      e.u ∈ (addRel G r).nodeIds ∧ e.v ∈ (addRel G r).nodeIds := by
  have hids : (addRel G r).nodeIds = G.nodeIds := by
    unfold Graph.nodeIds
    rw [addRel_nodes]
  rw [hids]
  intro e he
  unfold addRel at he
  split at he
  · rename_i hguard
    simp only [Bool.and_eq_true] at hguard
    obtain ⟨hs, ht⟩ := hguard
    rcases mem_updateEdges _ _ _ _ _ _ _ he with ⟨e0, h0, hu, hv⟩ | ⟨hu, hv⟩
    · rw [hu, hv]
      exact hG e0 h0
    · rw [hu, hv]
      exact ⟨(hasNode_iff G r.source).mp hs, (hasNode_iff G r.target).mp ht⟩
  · exact hG e he

/-- The edge-endpoint invariant survives the whole relationship loop. -/
theorem foldl_addRel_endpoints (rels : List RelRec) :
    ∀ G : Graph, (∀ e, e ∈ G.edges → e.u ∈ G.nodeIds ∧ e.v ∈ G.nodeIds) →
      ∀ e, e ∈ (rels.foldl addRel G).edges →
        e.u ∈ (rels.foldl addRel G).nodeIds ∧
          e.v ∈ (rels.foldl addRel G).nodeIds := by
  induction rels with
  | nil => intro G hG; exact hG
  | cons r rest ih =>
    intro G hG
    rw [List.foldl_cons]
    exact ih _ (addRel_endpoints G r hG)

/-- C7: every edge of a built graph has both endpoints among the graph's
nodes (a relationship whose endpoint is unknown is dropped with a warning),
and building from 3 artifacts plus one relationship naming an absent 4th
id yields exactly 3 nodes and no edges. -/
theorem C7_edge_endpoints_known (artifacts : List GArtifact)
    (rels : List RelRec) (e : EdgeData)
    (he : e ∈ (build_artifact_graph artifacts rels).edges) :
    (e.u ∈ (build_artifact_graph artifacts rels).nodeIds ∧
        e.v ∈ (build_artifact_graph artifacts rels).nodeIds) ∧
      ((build_artifact_graph
          [GArtifact.mk 1 "a" "Artifact" "", GArtifact.mk 2 "b" "Artifact" "",
            GArtifact.mk 3 "c" "Artifact" ""]
          [RelRec.mk 1 4 "Related" 50]).nodes.length = 3 ∧
        (build_artifact_graph
          [GArtifact.mk 1 "a" "Artifact" "", GArtifact.mk 2 "b" "Artifact" "",
            GArtifact.mk 3 "c" "Artifact" ""]
          [RelRec.mk 1 4 "Related" 50]).edges = []) := by
  constructor
  · refine foldl_addRel_endpoints rels _ ?_ e he
    intro e0 he0
    rw [base_graph_edges] at he0
    exact absurd he0 (List.not_mem_nil e0)
  · exact ⟨by decide, by decide⟩

/-- Witness for C7 on a graph that does contain an edge. -/
theorem C7_edge_endpoints_known_witness :
    ((EdgeData.mk 1 2 "Related" 50 "purple").u ∈
        (build_artifact_graph
          [GArtifact.mk 1 "a" "Artifact" "", GArtifact.mk 2 "b" "Artifact" ""]
          [RelRec.mk 1 2 "Related" 50]).nodeIds ∧
      (EdgeData.mk 1 2 "Related" 50 "purple").v ∈
        (build_artifact_graph
          [GArtifact.mk 1 "a" "Artifact" "", GArtifact.mk 2 "b" "Artifact" ""]
          [RelRec.mk 1 2 "Related" 50]).nodeIds) ∧
      ((build_artifact_graph
          [GArtifact.mk 1 "a" "Artifact" "", GArtifact.mk 2 "b" "Artifact" "",
            GArtifact.mk 3 "c" "Artifact" ""]
          [RelRec.mk 1 4 "Related" 50]).nodes.length = 3 ∧
        (build_artifact_graph
          [GArtifact.mk 1 "a" "Artifact" "", GArtifact.mk 2 "b" "Artifact" "",
            GArtifact.mk 3 "c" "Artifact" ""]
          [RelRec.mk 1 4 "Related" 50]).edges = []) :=
  C7_edge_endpoints_known
    [GArtifact.mk 1 "a" "Artifact" "", GArtifact.mk 2 "b" "Artifact" ""]
    [RelRec.mk 1 2 "Related" 50] (EdgeData.mk 1 2 "Related" 50 "purple")
    (by decide)

/-- Overwriting attributes keeps the stored orientation, hence the covered
pair. -/
theorem setAttrs_matchesPair (e : EdgeData) (u v : ℤ) (t : String) (s : ℚ)
    (c : String) : (e.setAttrs t s c).matchesPair u v = e.matchesPair u v :=
  rfl

/-- An edge covering `{u, v}` covers any orientation of that pair. -/
theorem matchesPair_of (e : EdgeData) (u v x y : ℤ)
    (he : e.matchesPair u v = true)
    (hxy : (x = u ∧ y = v) ∨ (x = v ∧ y = u)) :
    e.matchesPair x y = true := by
  simp only [EdgeData.matchesPair, decide_eq_true_eq] at he ⊢
  rcases hxy with ⟨rfl, rfl⟩ | ⟨rfl, rfl⟩
  · exact he
  · tauto

/-- Updating a one-edge list whose edge covers the pair overwrites in
place. -/
theorem updateEdges_single (e0 : EdgeData) (u v : ℤ) (t : String) (s : ℚ)
    (c : String) (hm : e0.matchesPair u v = true) :
    updateEdges u v t s c [e0] = [e0.setAttrs t s c] := by
  rw [updateEdges, if_pos hm]

/-- `getLastD` over a mapped list with the mapped default is the map of
the underlying `getLast`. -/
theorem map_getLastD_getLast {α β : Type} (l : List α) (a : α) (f : α → β) :
    (l.map f).getLastD (f a) = f ((a :: l).getLast (List.cons_ne_nil a l)) := by
  induction l generalizing a with
  | nil => rfl
  | cons b l ih =>
    rw [List.map_cons, List.getLastD_cons, ih b,
      List.getLast_cons (List.cons_ne_nil b l)]

/-- Folding same-pair relationship records over a graph holding a single
matching edge keeps a single matching edge carrying the attributes of the
last record (or the existing attributes when there are no records). -/
theorem foldl_addRel_samePair (u v : ℤ) (rels : List RelRec) :
    ∀ (G : Graph) (e0 : EdgeData), G.edges = [e0] →
      e0.matchesPair u v = true →
      G.hasNode u = true → G.hasNode v = true →
      (∀ r, r ∈ rels →
        (r.source = u ∧ r.target = v) ∨ (r.source = v ∧ r.target = u)) →
      ∃ e, (rels.foldl addRel G).edges = [e] ∧ e.matchesPair u v = true ∧
        e.etype = (rels.map RelRec.rtype).getLastD e0.etype ∧
        e.score = (rels.map RelRec.score).getLastD e0.score ∧
        e.color = (rels.map (fun r => edgeColorsGet r.rtype)).getLastD e0.color := by
  induction rels with
  | nil =>
    intro G e0 hE hm _ _ _
    exact ⟨e0, hE, hm, rfl, rfl, rfl⟩
  | cons r rs ih =>
    intro G e0 hE hm hu hv hpair
    have hr := hpair r (List.mem_cons_self _ _)
    have hgs : G.hasNode r.source = true := by
      rcases hr with ⟨h, _⟩ | ⟨h, _⟩ <;> rw [h] <;> assumption
    have hgt : G.hasNode r.target = true := by
      rcases hr with ⟨_, h⟩ | ⟨_, h⟩ <;> rw [h] <;> assumption
    have hm' : e0.matchesPair r.source r.target = true :=
      matchesPair_of e0 u v _ _ hm hr
    have hstep : (addRel G r).edges =
        [e0.setAttrs r.rtype r.score (edgeColorsGet r.rtype)] := by
      unfold addRel
      rw [if_pos (by rw [hgs, hgt]; rfl)]
      show updateEdges _ _ _ _ _ G.edges = _
      rw [hE, updateEdges_single e0 _ _ _ _ _ hm']
    obtain ⟨e, h1, h2, h3, h4, h5⟩ := ih (addRel G r)
      (e0.setAttrs r.rtype r.score (edgeColorsGet r.rtype)) hstep
      ((setAttrs_matchesPair e0 u v _ _ _).trans hm)
      ((addRel_hasNode G r u).trans hu) ((addRel_hasNode G r v).trans hv)
      (fun r' h' => hpair r' (List.mem_cons_of_mem _ h'))
    refine ⟨e, ?_, h2, ?_, ?_, ?_⟩
    · rw [List.foldl_cons]
      exact h1
    · rw [List.map_cons, List.getLastD_cons]
      exact h3
    · rw [List.map_cons, List.getLastD_cons]
      exact h4
    · rw [List.map_cons, List.getLastD_cons]
      exact h5

/-- C10: when every relationship record covers the same unordered pair of
node ids, the built graph holds exactly one edge over that pair, and its
type, score and colour come from the last record in the input sequence
(later records overwrite earlier edge attributes). -/
theorem C10_same_pair_last_record_wins (artifacts : List GArtifact)
    (u v : ℤ) (r0 : RelRec) (rest : List RelRec)
    (hpair : ∀ r, r ∈ r0 :: rest →
      (r.source = u ∧ r.target = v) ∨ (r.source = v ∧ r.target = u))
    (hu : (build_artifact_graph artifacts []).hasNode u = true)
    (hv : (build_artifact_graph artifacts []).hasNode v = true) :
    ∃ e, (build_artifact_graph artifacts (r0 :: rest)).edges = [e] ∧
      e.matchesPair u v = true ∧
      e.etype = ((r0 :: rest).getLast (List.cons_ne_nil r0 rest)).rtype ∧
      e.score = ((r0 :: rest).getLast (List.cons_ne_nil r0 rest)).score ∧
      e.color =
        edgeColorsGet ((r0 :: rest).getLast (List.cons_ne_nil r0 rest)).rtype := by
  have hr0 := hpair r0 (List.mem_cons_self _ _)
  have hu' : (artifacts.foldl addArtifactNode ⟨[], []⟩).hasNode u = true := hu
  have hv' : (artifacts.foldl addArtifactNode ⟨[], []⟩).hasNode v = true := hv
  have hgs : (artifacts.foldl addArtifactNode ⟨[], []⟩).hasNode r0.source = true := by
    rcases hr0 with ⟨h, _⟩ | ⟨h, _⟩ <;> rw [h] <;> assumption
  have hgt : (artifacts.foldl addArtifactNode ⟨[], []⟩).hasNode r0.target = true := by
    rcases hr0 with ⟨_, h⟩ | ⟨_, h⟩ <;> rw [h] <;> assumption
  have hstep : (addRel (artifacts.foldl addArtifactNode ⟨[], []⟩) r0).edges =
      [EdgeData.mk r0.source r0.target r0.rtype r0.score (edgeColorsGet r0.rtype)] := by
    unfold addRel
    rw [if_pos (by rw [hgs, hgt]; rfl)]
    show updateEdges _ _ _ _ _ (artifacts.foldl addArtifactNode ⟨[], []⟩).edges = _
    rw [base_graph_edges artifacts]
    rfl
  have hm0 : (EdgeData.mk r0.source r0.target r0.rtype r0.score
      (edgeColorsGet r0.rtype)).matchesPair u v = true := by
    simp only [EdgeData.matchesPair, decide_eq_true_eq]
    rcases hr0 with ⟨h1, h2⟩ | ⟨h1, h2⟩
    · exact Or.inl ⟨h1, h2⟩
    · exact Or.inr ⟨h1, h2⟩
  obtain ⟨e, h1, h2, h3, h4, h5⟩ := foldl_addRel_samePair u v rest
    (addRel (artifacts.foldl addArtifactNode ⟨[], []⟩) r0)
    (EdgeData.mk r0.source r0.target r0.rtype r0.score (edgeColorsGet r0.rtype))
    hstep hm0
    ((addRel_hasNode _ r0 u).trans hu') ((addRel_hasNode _ r0 v).trans hv')
    (fun r' h' => hpair r' (List.mem_cons_of_mem _ h'))
  refine ⟨e, ?_, h2, ?_, ?_, ?_⟩
  · show (List.foldl addRel _ (r0 :: rest)).edges = [e]
    rw [List.foldl_cons]
    exact h1
  · rw [h3]
    exact map_getLastD_getLast rest r0 RelRec.rtype
  · rw [h4]
    exact map_getLastD_getLast rest r0 RelRec.score
  · rw [h5]
    exact map_getLastD_getLast rest r0 (fun r => edgeColorsGet r.rtype)

/-- Witness for C10: two records over the pair `{1, 2}` in opposite
orientations leave one edge carrying the second record's attributes. -/
theorem C10_same_pair_last_record_wins_witness :
    ∃ e, (build_artifact_graph
        [GArtifact.mk 1 "a" "Artifact" "", GArtifact.mk 2 "b" "Artifact" ""]
        (RelRec.mk 1 2 "Related" 50 :: [RelRec.mk 2 1 "FuzzyLink" 80])).edges = [e] ∧
      e.matchesPair 1 2 = true ∧
      e.etype = ((RelRec.mk 1 2 "Related" 50 :: [RelRec.mk 2 1 "FuzzyLink" 80]).getLast
        (List.cons_ne_nil _ _)).rtype ∧
      e.score = ((RelRec.mk 1 2 "Related" 50 :: [RelRec.mk 2 1 "FuzzyLink" 80]).getLast
        (List.cons_ne_nil _ _)).score ∧
      e.color = edgeColorsGet
        ((RelRec.mk 1 2 "Related" 50 :: [RelRec.mk 2 1 "FuzzyLink" 80]).getLast
          (List.cons_ne_nil _ _)).rtype :=
  C10_same_pair_last_record_wins
    [GArtifact.mk 1 "a" "Artifact" "", GArtifact.mk 2 "b" "Artifact" ""]
    1 2 (RelRec.mk 1 2 "Related" 50) [RelRec.mk 2 1 "FuzzyLink" 80]
    (by decide) (by decide) (by decide)
